import Mathlib

/-!
Verification development for the pymonome-apps repository.

The file shallowly embeds the core of two source modules:

* meadowphysics.py — the counter automaton (class Counter and class
  Meadowphysics): counters, rules, events, sync vectors, the per-step
  update loop, and reset_counters.
* clocks.py — the tick-synchronisation primitive (the sync coroutine
  shared by RtMidiClock, FooClock and InaccurateTempoClock) and the
  tempo-estimation logic of the tick-reader loop.

Python machine integers are modelled as Int; Python lists as List;
random.randint is modelled by an explicit random input folded into the
range with emod; the asynchronous tick event is modelled by the list of
tick-counter values observed at successive event broadcasts.
-/

namespace MP

/-- Rule enumeration from meadowphysics.py (class Rule). -/
inductive Rule where
  | NONE
  | INC
  | DEC
  | MAX
  | MIN
  | RAND
  | POLE
  | STOP
deriving DecidableEq, Repr

/-- Event enumeration from meadowphysics.py (class Event). -/
inductive Event where
  | NONE
  | TRIGGER
  | TOGGLE
deriving DecidableEq, Repr

/-- State enumeration from meadowphysics.py (class State). -/
inductive State where
  | STOPPED
  | READY
  | RUNNING
deriving DecidableEq, Repr

/-- One automaton cell: the mutable fields of meadowphysics.py class Counter. -/
structure Counter where
  value : Int
  start_value : Int
  range_min : Int
  range_max : Int
  speed : Int
  ticks : Int
  events : List Event
  sync : List Bool
  rule_dest : Nat
  rule : Rule
  state : State
deriving DecidableEq, Repr

/-- Counter.start: value = start_value; READY when delayed else RUNNING. -/
def Counter.start (c : Counter) (delayed : Bool) : Counter :=
  { c with value := c.start_value,
           state := if delayed then State.READY else State.RUNNING }

/-- Counter.stop: value = start_value; state = STOPPED. -/
def Counter.stop (c : Counter) : Counter :=
  { c with value := c.start_value, state := State.STOPPED }

/-- Counter.decrement: local sub-divider; decrement value when ticks is 0,
else count ticks down. -/
def Counter.decrement (c : Counter) : Counter :=
  if c.ticks = 0 then
    { c with value := c.value - 1, ticks := c.speed }
  else
    { c with ticks := c.ticks - 1 }

/-- Counter.apply_rule. The RAND branch models random.randint(range_min,
range_max) by folding an arbitrary random input r into the inclusive range
with emod (for range_min ≤ range_max this lands in the same range). -/
def Counter.apply_rule (c : Counter) (rule : Rule) (r : Int) : Counter :=
  match rule with
  | Rule.INC =>
      let sv := c.start_value + 1
      { c with start_value := if sv > c.range_max then c.range_min else sv }
  | Rule.DEC =>
      let sv := c.start_value - 1
      { c with start_value := if sv < c.range_min then c.range_max else sv }
  | Rule.MAX => { c with start_value := c.range_max }
  | Rule.MIN => { c with start_value := c.range_min }
  | Rule.RAND =>
      { c with start_value := c.range_min + r % (c.range_max - c.range_min + 1) }
  | Rule.POLE =>
      let distance_to_min := c.start_value - c.range_min
      let distance_to_max := c.range_max - c.start_value
      { c with start_value :=
          if distance_to_min > distance_to_max then c.range_min else c.range_max }
  | Rule.STOP => c.stop
  | Rule.NONE => c

/-- The automaton state: the counter array and the output vector of
class Meadowphysics (clock and midi collaborators are external). -/
structure Meadowphysics where
  counters : List Counter
  output : List Event
deriving DecidableEq, Repr

/-- First loop of Meadowphysics.step: clear every output slot that is
TRIGGER (TOGGLE persists). -/
def clearTriggers (out : List Event) : List Event :=
  out.map (fun e => if e = Event.TRIGGER then Event.NONE else e)

/-- Output half of the inner j-loop body of Meadowphysics.step run when
counter c has completed: events[j] = TRIGGER forces output[j] = TRIGGER;
events[j] = TOGGLE flips output[j] between TOGGLE and NONE. -/
def outputEventAt (c : Counter) (out : List Event) (j : Nat) : List Event :=
  if c.events.getD j Event.NONE = Event.TRIGGER then
    out.set j Event.TRIGGER
  else if c.events.getD j Event.NONE = Event.TOGGLE then
    if out.getD j Event.NONE ≠ Event.TOGGLE then
      out.set j Event.TOGGLE
    else
      out.set j Event.NONE
  else out

/-- Sync half of the inner j-loop body: when c.sync[j] is true, counter j
is started immediately (the source calls start() with its default
delayed=False). -/
def syncStartAt (c : Counter) (cs : List Counter) (j : Nat) : List Counter :=
  if c.sync.getD j false then
    match cs.get? j with
    | some cj => cs.set j (cj.start false)
    | none => cs
  else cs

/-- Body of the inner j-loop of Meadowphysics.step for a completed counter
c: the output update reads and writes only the output vector, the sync
start reads and writes only the counter array, so the two halves of the
loop body commute and are modelled componentwise. -/
def applyEventAt (c : Counter) (st : List Counter × List Event) (j : Nat) :
    List Counter × List Event :=
  (syncStartAt c st.1 j, outputEventAt c st.2 j)

/-- Body of the main i-loop of Meadowphysics.step for counter index i.
READY counters start immediately; RUNNING counters decrement, and on
completion (value = -1) the counter is stopped, its rule is applied to
counters[rule_dest], and the j-loop propagates events and sync starts.
rnd i supplies the random input consumed if the rule is RAND. -/
def applyRuleAt (cs : List Counter) (dest : Nat) (rule : Rule) (r : Int) :
    List Counter :=
  match cs.get? dest with
  | some d => cs.set dest (d.apply_rule rule r)
  | none => cs

/-- Completion branch of the step loop for a counter that just reached
value -1 and was stopped as c2 (still stored at index i): apply its rule
to counters[rule_dest], then run the inner j-loop over all indices. -/
def completeAt (n : Nat) (rnd : Nat → Int) (st : List Counter × List Event)
    (i : Nat) (c2 : Counter) : List Counter × List Event :=
  let cs1 := st.1.set i c2
  let cs2 := applyRuleAt cs1 c2.rule_dest c2.rule (rnd i)
  (List.range n).foldl (applyEventAt c2) (cs2, st.2)

def stepAt (n : Nat) (rnd : Nat → Int) (st : List Counter × List Event) (i : Nat) :
    List Counter × List Event :=
  match st.1.get? i with
  | none => st
  | some c =>
    if c.state = State.READY then
      (st.1.set i (c.start false), st.2)
    else if c.state = State.RUNNING then
      let c1 := c.decrement
      if c1.value = -1 then
        completeAt n rnd st i c1.stop
      else
        (st.1.set i c1, st.2)
    else st

/-- Meadowphysics.step: clear TRIGGER outputs, then process every counter
in index order (midi.pipe and updated.dispatch are external effects). -/
def Meadowphysics.step (m : Meadowphysics) (rnd : Nat → Int) : Meadowphysics :=
  let n := m.counters.length
  let st := (List.range n).foldl (stepAt n rnd) (m.counters, clearTriggers m.output)
  { counters := st.1, output := st.2 }

/-- Per-counter body of Meadowphysics.reset_counters: start_value to
range_min, then a delayed restart for RUNNING counters. -/
def resetCounter (c : Counter) : Counter :=
  let c1 := { c with start_value := c.range_min }
  if c1.state = State.RUNNING then c1.start true else c1

/-- Meadowphysics.reset_counters (updated.dispatch is an external effect). -/
def Meadowphysics.reset_counters (m : Meadowphysics) : Meadowphysics :=
  { m with counters := m.counters.map resetCounter }

/-- Well-formedness of a counter: a non-negative range containing
start_value, value within [-1, range_max], and a RUNNING counter has a
non-negative value. These hold for every counter the application builds
(grid coordinates are non-negative) and are preserved by the automaton. -/
def Counter.WF (c : Counter) : Prop :=
  0 ≤ c.range_min ∧ c.range_min ≤ c.start_value ∧ c.start_value ≤ c.range_max ∧
  -1 ≤ c.value ∧ c.value ≤ c.range_max ∧
  (c.state = State.RUNNING → 0 ≤ c.value)

instance (c : Counter) : Decidable c.WF := by
  unfold Counter.WF; infer_instance

/-- Every counter of the array is well-formed. -/
def allWF (cs : List Counter) : Prop := ∀ c ∈ cs, c.WF

instance (cs : List Counter) : Decidable (allWF cs) := by
  unfold allWF; infer_instance

/-- A fixed random tape (no claim scenario exercises the RAND rule). -/
def rnd0 : Nat → Int := fun _ => 0

/-- Counter 0 of the step-ordering scenario of the spec: value 0, speed 0,
rule_dest 1, rule MAX, sync = [false, true, false], RUNNING. -/
def sc1c0 : Counter :=
  { value := 0, start_value := 3, range_min := 0, range_max := 3, speed := 0, ticks := 0,
    events := [Event.NONE, Event.NONE, Event.NONE],
    sync := [false, true, false],
    rule_dest := 1, rule := Rule.MAX, state := State.RUNNING }

/-- Counter 1 of the step-ordering scenario: STOPPED, range 2..5. -/
def sc1c1 : Counter :=
  { value := 3, start_value := 3, range_min := 2, range_max := 5, speed := 0, ticks := 0,
    events := [Event.NONE, Event.NONE, Event.NONE],
    sync := [false, false, false],
    rule_dest := 1, rule := Rule.NONE, state := State.STOPPED }

/-- Counter 2 of the step-ordering scenario: inert. -/
def sc1c2 : Counter := { sc1c1 with rule_dest := 2 }

/-- The N = 3 step-ordering scenario automaton. -/
def scenarioC1 : Meadowphysics :=
  { counters := [sc1c0, sc1c1, sc1c2],
    output := [Event.NONE, Event.NONE, Event.NONE] }

/-- Counter 0 of the event-propagation scenario: completes this step with
events = [TRIGGER, TOGGLE, NONE] and no sync or rule side effects. -/
def sc7c0 : Counter :=
  { sc1c0 with events := [Event.TRIGGER, Event.TOGGLE, Event.NONE],
               sync := [false, false, false],
               rule := Rule.NONE, rule_dest := 0 }

/-- The event-propagation scenario automaton: output starts at
[NONE, TOGGLE, NONE]. -/
def scenarioC7 : Meadowphysics :=
  { counters := [sc7c0, sc1c1, sc1c2],
    output := [Event.NONE, Event.TOGGLE, Event.NONE] }

/-- A single RUNNING counter with range 2..5 counting down from
value = range_min = 2. -/
def sc2c : Counter :=
  { value := 2, start_value := 2, range_min := 2, range_max := 5, speed := 0, ticks := 0,
    events := [Event.NONE], sync := [false], rule_dest := 0, rule := Rule.NONE,
    state := State.RUNNING }

/-- One-counter automaton for the value-bounds trace. -/
def scenarioC2 : Meadowphysics := { counters := [sc2c], output := [Event.NONE] }

/-- A RUNNING counter mid-countdown (value 5, start_value 4, range 2..5). -/
def sc3c : Counter := { sc2c with value := 5, start_value := 4 }

/-- One-counter automaton for the reset scenario. -/
def scenarioC3 : Meadowphysics := { counters := [sc3c], output := [Event.NONE] }

/-- A counter with range 2..5 for the rule-correctness table. -/
def tableCounter : Counter := { sc2c with state := State.STOPPED, start_value := 3 }

/-- A counter whose sync vector names counter 0, for instantiating the
immediate-sync-start property. -/
def syncSrcW : Counter := { sc2c with sync := [true] }

end MP

namespace Clocks

/-- Outcome of a sync call, given the finite list of tick-counter values
observed at successive tick-event broadcasts after the call: ok t when the
loop exits returning t; zeroDivError when evaluating ticks % 0 raises
ZeroDivisionError; pending when no further broadcast arrives. -/
inductive SyncOutcome where
  | ok (t : Int)
  | zeroDivError
  | pending
deriving DecidableEq, Repr

/-- The sync coroutine of clocks.py (identical in RtMidiClock, FooClock
and InaccurateTempoClock): wait for a tick-event broadcast, then loop
while ticks % q is nonzero, waiting again each time; return ticks. The
caller observes only ticks values delivered by broadcasts that happen
after the call (the event is set and immediately cleared by the
producer, so a waiter never sees a stale set flag). Python evaluates
ticks % q after the first wait, so q = 0 raises only then. -/
def sync (q : Int) : List Int → SyncOutcome
  | [] => SyncOutcome.pending
  | t :: ts =>
    if q = 0 then SyncOutcome.zeroDivError
    else if t % q = 0 then SyncOutcome.ok t
    else sync q ts

/-- Bounded interval history: collections.deque(maxlen=96) under a single
append, dropping the oldest entries beyond 96. -/
def pushInterval (l : List ℚ) (x : ℚ) : List ℚ :=
  if 96 < (l ++ [x]).length then (l ++ [x]).drop ((l ++ [x]).length - 96)
  else l ++ [x]

/-- Tick-reader state of RtMidiClock: tick counter, wall-clock time of the
previous tick, the interval history and the tempo estimate (field bpm).
Wall-clock times and the estimate are modelled as exact rationals. -/
structure ClockState where
  ticks : Int
  last_tick : ℚ
  tick_intervals : List ℚ
  bpm : ℚ
deriving DecidableEq, Repr

/-- One non-stopped iteration of RtMidiClock._read_ticks after a tick
arrives at wall-clock time now: increment ticks, append the elapsed
interval, recompute bpm = 1 / (sum / len) / 24 * 60, remember now. -/
def read_ticks_once (s : ClockState) (now : ℚ) : ClockState :=
  let intervals := pushInterval s.tick_intervals (now - s.last_tick)
  { ticks := s.ticks + 1,
    last_tick := now,
    tick_intervals := intervals,
    bpm := 1 / (intervals.sum / (intervals.length : ℚ)) / 24 * 60 }

end Clocks

namespace MP

/-- A foldl step that preserves a predicate preserves it over any list. -/
theorem foldl_preserves {α β : Type} (P : β → Prop) (f : β → α → β)
    (hf : ∀ st a, P st → P (f st a)) :
    ∀ (l : List α) (st : β), P st → P (l.foldl f st) := by
  intro l
  induction l with
  | nil => exact fun st h => h
  | cons a l ih => exact fun st h => ih (f st a) (hf st a h)

/-- Counter.start preserves well-formedness. -/
theorem wf_start {c : Counter} (h : c.WF) (d : Bool) : (c.start d).WF := by
  rcases h with ⟨h1, h2, h3, h4, h5, h6⟩
  simp only [Counter.start, Counter.WF]
  refine ⟨h1, h2, h3, by omega, h3, ?_⟩
  cases d
  · simp
    omega
  · simp


/-- Counter.stop yields a well-formed counter from range facts alone. -/
theorem wf_stop_of_ranges {c : Counter} (h1 : 0 ≤ c.range_min)
    (h2 : c.range_min ≤ c.start_value) (h3 : c.start_value ≤ c.range_max) :
    c.stop.WF := by
  simp only [Counter.stop, Counter.WF]
  exact ⟨h1, h2, h3, by omega, h3, by simp⟩

/-- Counter.stop preserves well-formedness. -/
theorem wf_stop {c : Counter} (h : c.WF) : c.stop.WF :=
  wf_stop_of_ranges h.1 h.2.1 h.2.2.1

/-- Counter.decrement leaves start_value, range and state untouched. -/
theorem decrement_fields (c : Counter) :
    c.decrement.start_value = c.start_value ∧
    c.decrement.range_min = c.range_min ∧
    c.decrement.range_max = c.range_max ∧
    c.decrement.state = c.state ∧
    (c.decrement.value = c.value - 1 ∨ c.decrement.value = c.value) := by
  simp only [Counter.decrement]
  split_ifs <;> simp

/-- Counter.apply_rule preserves well-formedness for every rule. -/
theorem wf_apply_rule {c : Counter} (h : c.WF) (rule : Rule) (r : Int) :
    (c.apply_rule rule r).WF := by
  rcases h with ⟨h1, h2, h3, h4, h5, h6⟩
  cases rule with
  | NONE => exact ⟨h1, h2, h3, h4, h5, h6⟩
  | STOP => exact wf_stop ⟨h1, h2, h3, h4, h5, h6⟩
  | INC =>
      simp only [Counter.apply_rule, Counter.WF]
      split_ifs <;> exact ⟨h1, by omega, by omega, h4, h5, h6⟩
  | DEC =>
      simp only [Counter.apply_rule, Counter.WF]
      split_ifs <;> exact ⟨h1, by omega, by omega, h4, h5, h6⟩
  | MAX =>
      simp only [Counter.apply_rule, Counter.WF]
      exact ⟨h1, by omega, by omega, h4, h5, h6⟩
  | MIN =>
      simp only [Counter.apply_rule, Counter.WF]
      exact ⟨h1, by omega, by omega, h4, h5, h6⟩
  | POLE =>
      simp only [Counter.apply_rule, Counter.WF]
      split_ifs <;> exact ⟨h1, by omega, by omega, h4, h5, h6⟩
  | RAND =>
      have hmod : c.range_max - c.range_min + 1 ≠ 0 := by omega
      have hpos : (0 : Int) < c.range_max - c.range_min + 1 := by omega
      have hlo := Int.emod_nonneg r hmod
      have hhi := Int.emod_lt_of_pos r hpos
      simp only [Counter.apply_rule, Counter.WF]
      exact ⟨h1, by omega, by omega, h4, h5, h6⟩

/-- Setting a well-formed counter keeps the array well-formed. -/
theorem allWF_set {cs : List Counter} {c : Counter} {i : Nat}
    (h : allWF cs) (hc : c.WF) : allWF (cs.set i c) := by
  intro x hx
  rcases List.mem_or_eq_of_mem_set hx with h1 | h1
  · exact h x h1
  · subst h1; exact hc

/-- The immediate sync start of the inner loop keeps the array
well-formed. -/
theorem allWF_syncStartAt {c : Counter} {cs : List Counter} (h : allWF cs)
    (j : Nat) : allWF (syncStartAt c cs j) := by
  unfold syncStartAt
  split_ifs
  · cases hj : cs.get? j with
    | none => exact h
    | some cj => exact allWF_set h (wf_start (h cj (List.get?_mem hj)) false)
  · exact h

/-- The whole inner loop body keeps the counter array well-formed. -/
theorem allWF_applyEventAt {c : Counter} {st : List Counter × List Event}
    (h : allWF st.1) (j : Nat) : allWF (applyEventAt c st j).1 :=
  allWF_syncStartAt h j

/-- Applying a rule at an arbitrary destination keeps the array
well-formed. -/
theorem allWF_applyRuleAt {cs : List Counter} (h : allWF cs) (dest : Nat)
    (rule : Rule) (r : Int) : allWF (applyRuleAt cs dest rule r) := by
  unfold applyRuleAt
  cases hd : cs.get? dest with
  | none => exact h
  | some d => exact allWF_set h (wf_apply_rule (h d (List.get?_mem hd)) rule r)

/-- Unfolding lemma for stepAt at a missing index. -/
theorem stepAt_none {n : Nat} {rnd : Nat → Int} {st : List Counter × List Event}
    {i : Nat} (hi : st.1.get? i = none) : stepAt n rnd st i = st := by
  unfold stepAt; rw [hi]

/-- Unfolding lemma for stepAt at a present index. -/
theorem stepAt_some {n : Nat} {rnd : Nat → Int} {st : List Counter × List Event}
    {i : Nat} {c : Counter} (hi : st.1.get? i = some c) :
    stepAt n rnd st i =
      if c.state = State.READY then
        (st.1.set i (c.start false), st.2)
      else if c.state = State.RUNNING then
        (if c.decrement.value = -1 then completeAt n rnd st i c.decrement.stop
         else (st.1.set i c.decrement, st.2))
      else st := by
  unfold stepAt; rw [hi]

/-- The completion branch keeps the counter array well-formed. -/
theorem allWF_completeAt {n : Nat} {rnd : Nat → Int}
    {st : List Counter × List Event} {c2 : Counter}
    (h : allWF st.1) (hc2 : c2.WF) (i : Nat) :
    allWF (completeAt n rnd st i c2).1 := by
  unfold completeAt
  exact foldl_preserves (fun x : List Counter × List Event => allWF x.1) _
    (fun x j hx => allWF_applyEventAt hx j) _ _
    (allWF_applyRuleAt (allWF_set h hc2) c2.rule_dest c2.rule (rnd i))

/-- One iteration of the main step loop keeps the array well-formed. -/
theorem allWF_stepAt {n : Nat} {rnd : Nat → Int} {st : List Counter × List Event}
    (h : allWF st.1) (i : Nat) : allWF (stepAt n rnd st i).1 := by
  cases hi : st.1.get? i with
  | none => rw [stepAt_none hi]; exact h
  | some c =>
    have hc : c.WF := h c (List.get?_mem hi)
    rcases decrement_fields c with ⟨f1, f2, f3, f4, _⟩
    rw [stepAt_some hi]
    split_ifs with hr hr2 hv
    · exact allWF_set h (wf_start hc false)
    · have hstop : c.decrement.stop.WF := by
        refine wf_stop_of_ranges ?_ ?_ ?_ <;>
          simp only [Counter.stop, f1, f2, f3] <;>
          first
            | exact hc.1
            | exact hc.2.1
            | exact hc.2.2.1
      exact allWF_completeAt h hstop i
    · refine allWF_set h ?_
      rcases hc with ⟨h1, h2, h3, h4, h5, h6⟩
      have hv0 : 0 ≤ c.value := h6 hr2
      simp only [Counter.WF, f1, f2, f3, f4, hr2]
      simp only [Counter.decrement] at hv ⊢
      split_ifs at hv ⊢ with ht
      · refine ⟨h1, h2, h3, by simp; omega, by simp; omega, ?_⟩
        intro
        simp only at hv ⊢
        omega
      · exact ⟨h1, h2, h3, by simpa using h4, by simpa using h5, fun _ => by simpa using hv0⟩
    · exact h

/-- Meadowphysics.step keeps every counter well-formed. -/
theorem allWF_step {m : Meadowphysics} (rnd : Nat → Int) (h : allWF m.counters) :
    allWF (m.step rnd).counters := by
  simp only [Meadowphysics.step]
  exact foldl_preserves (fun x : List Counter × List Event => allWF x.1) _
    (fun x i hx => allWF_stepAt hx i) _ _ h

end MP

namespace Clocks

/-- A tick returned by sync was observed at one of the broadcasts after
the call and is divisible by q. -/
theorem sync_ok_spec (q : Int) : ∀ (ts : List Int) (t : Int),
    sync q ts = SyncOutcome.ok t → t ∈ ts ∧ t % q = 0 := by
  intro ts
  induction ts with
  | nil => intro t h; simp [sync] at h
  | cons a ts ih =>
    intro t h
    simp only [sync] at h
    split_ifs at h with h0 hm
    · obtain rfl : a = t := by simpa using h
      exact ⟨List.mem_cons_self a ts, hm⟩
    · rcases ih t h with ⟨h1, h2⟩
      exact ⟨List.mem_cons_of_mem a h1, h2⟩

/-- sync with subdivision 1 resolves on the first broadcast. -/
theorem sync_one (t : Int) (ts : List Int) :
    sync 1 (t :: ts) = SyncOutcome.ok t := by
  simp [sync, Int.emod_one]

/-- The bounded interval history never exceeds 96 entries and is nonempty
after a push. -/
theorem pushInterval_length (l : List ℚ) (x : ℚ) :
    1 ≤ (pushInterval l x).length ∧ (pushInterval l x).length ≤ 96 := by
  unfold pushInterval
  split_ifs with h <;> simp at h ⊢ <;> omega

/-- The bpm expression of the source equals the spec formula
60 / (24 x), including at x = 0 where both sides are 0. -/
theorem bpm_formula (x : ℚ) : 1 / x / 24 * 60 = 60 / (24 * x) := by
  rcases eq_or_ne x 0 with h | h
  · subst h; norm_num
  · field_simp
    ring

/-- A nonempty history in which all intervals are one half has mean one
half. -/
theorem mean_const_half (l : List ℚ) (h : ∀ y ∈ l, y = 1 / 2)
    (hl : 1 ≤ l.length) : l.sum / (l.length : ℚ) = 1 / 2 := by
  rw [List.sum_eq_card_nsmul l (1 / 2) h, nsmul_eq_mul]
  have h0 : (l.length : ℚ) ≠ 0 := by
    have hne : l.length ≠ 0 := by omega
    exact_mod_cast hne
  field_simp
  ring

end Clocks

open MP Clocks

/-- Claim C4 counterexample: the claim states that every q < 1 passed to
sync fails fast with an InvalidArgument error, never proceeding to wait;
but with q = -1 < 1 the source performs no validation and the call
proceeds to wait, returning the first broadcast tick. -/
theorem C4_counterexample :
    ((-1 : Int) < 1) ∧ sync (-1) [7] = SyncOutcome.ok 7 := by decide

/-- Claim C4 as amended: sync performs no validation of its subdivision
q. For q = 0 it raises ZeroDivisionError, and only after the first tick
broadcast rather than failing fast; for any other q < 1 it proceeds to
wait normally and returns a broadcast tick divisible by q. No
InvalidArgument error path exists. -/
theorem C4_sync_no_validation (q : Int) (_hq : q < 1) (ts : List Int) :
    (q = 0 → ts ≠ [] → sync q ts = SyncOutcome.zeroDivError) ∧
    (q ≠ 0 → ∀ t, sync q ts = SyncOutcome.ok t → t ∈ ts ∧ t % q = 0) := by
  constructor
  · intro h0 hne
    cases ts with
    | nil => exact absurd rfl hne
    | cons a ts => simp [sync, h0]
  · intro h0 t h
    exact sync_ok_spec q ts t h

/-- Claim C4 witness: instantiation at q = -1 with a single broadcast of
tick 7. -/
theorem C4_witness : (7 : Int) ∈ [(7 : Int)] ∧ (7 : Int) % (-1) = 0 :=
  (C4_sync_no_validation (-1) (by norm_num) [7]).2 (by norm_num) 7 (by decide)

/-- Claim C5: for every integer q ≥ 1, every value returned by sync(q) is
an exact multiple of q, and sync(1) resolves on every tick (the first
broadcast after the call). Each concurrent caller is an independent
observer of the same broadcast stream, so the property holds for every
caller against the same clock. -/
theorem C5_sync_multiples :
    (∀ q : Int, 1 ≤ q → ∀ (ts : List Int) (t : Int),
        sync q ts = SyncOutcome.ok t → t % q = 0) ∧
    (∀ (t : Int) (ts : List Int), sync 1 (t :: ts) = SyncOutcome.ok t) := by
  constructor
  · intro q _ ts t h
    exact (sync_ok_spec q ts t h).2
  · exact sync_one

/-- Claim C5 witness: sync(3) over broadcasts 2, 4, 6 returns 6, a
multiple of 3, and sync(1) resolves on the first broadcast. -/
theorem C5_witness :
    (6 : Int) % 3 = 0 ∧ sync 1 [5] = SyncOutcome.ok 5 :=
  ⟨C5_sync_multiples.1 3 (by norm_num) [2, 4, 6] 6 (by decide),
   C5_sync_multiples.2 5 []⟩

/-- Claim C8: the wake is edge-triggered. A sync call only ever returns a
tick value observed at a broadcast that happens after the call, and when
no further broadcast arrives it stays pending even if the tick count t0
current at call time already satisfies t0 mod q = 0. -/
theorem C8_sync_edge_triggered :
    (∀ (q : Int) (ts : List Int) (t : Int),
        sync q ts = SyncOutcome.ok t → t ∈ ts) ∧
    (∀ q t0 : Int, t0 % q = 0 → sync q [] = SyncOutcome.pending) := by
  constructor
  · intro q ts t h
    exact (sync_ok_spec q ts t h).1
  · intro q t0 _
    rfl

/-- Claim C8 witness: sync(2) returning 4 observed it among the
subsequent broadcasts, and sync(2) with no subsequent broadcast stays
pending although the current count 4 already satisfies the predicate. -/
theorem C8_witness :
    (4 : Int) ∈ [(4 : Int)] ∧ sync 2 [] = SyncOutcome.pending :=
  ⟨C8_sync_edge_triggered.1 2 [4] 4 (by decide),
   C8_sync_edge_triggered.2 2 4 (by decide)⟩

/-- Claim C9: after every pulse the tempo estimate equals 60 divided by
(24 times the mean of the recorded inter-pulse intervals), the history
retains at most 96 intervals, and once every recorded interval equals
one half second the estimate equals 5 beats per minute. -/
theorem C9_tempo_estimate (s : ClockState) (now : ℚ) :
    (read_ticks_once s now).bpm =
      60 / (24 * ((read_ticks_once s now).tick_intervals.sum /
        ((read_ticks_once s now).tick_intervals.length : ℚ))) ∧
    (read_ticks_once s now).tick_intervals.length ≤ 96 ∧
    ((∀ y ∈ (read_ticks_once s now).tick_intervals, y = 1 / 2) →
      (read_ticks_once s now).bpm = 5) := by
  have hlen := pushInterval_length s.tick_intervals (now - s.last_tick)
  refine ⟨?_, ?_, ?_⟩
  · simp only [read_ticks_once]
    exact bpm_formula _
  · simp only [read_ticks_once]
    exact hlen.2
  · intro hy
    simp only [read_ticks_once] at hy ⊢
    rw [mean_const_half _ hy hlen.1]
    norm_num

/-- Claim C9 witness: one pulse arriving half a second after the previous
one, starting from an empty history, yields a tempo estimate of exactly
5 beats per minute. -/
theorem C9_witness :
    (read_ticks_once (ClockState.mk 0 0 [] 120) (1 / 2)).bpm = 5 :=
  (C9_tempo_estimate _ _).2.2 (by
    intro y hy
    simpa [read_ticks_once, pushInterval] using hy)

/-- Claim C6: apply_rule mutates start_value as specified. INC adds 1,
wrapping to range_min when the result exceeds range_max; DEC subtracts 1,
wrapping to range_max below range_min; MAX and MIN snap to the bounds;
POLE moves to the farther bound with ties resolving toward range_max
(the result is range_max exactly when the distance to range_min is at
most the distance to range_max). The final conjunct is the concrete
table for range_min = 2, range_max = 5. -/
theorem C6_apply_rule_rules :
    (∀ (c : Counter) (r : Int), c.start_value ≤ c.range_max →
        (c.apply_rule Rule.INC r).start_value =
          if c.start_value = c.range_max then c.range_min
          else c.start_value + 1) ∧
    (∀ (c : Counter) (r : Int), c.range_min ≤ c.start_value →
        (c.apply_rule Rule.DEC r).start_value =
          if c.start_value = c.range_min then c.range_max
          else c.start_value - 1) ∧
    (∀ (c : Counter) (r : Int),
        (c.apply_rule Rule.MAX r).start_value = c.range_max ∧
        (c.apply_rule Rule.MIN r).start_value = c.range_min) ∧
    (∀ (c : Counter) (r : Int),
        c.range_min ≤ c.start_value → c.start_value ≤ c.range_max →
        ((c.apply_rule Rule.POLE r).start_value = c.range_max ↔
          c.start_value - c.range_min ≤ c.range_max - c.start_value)) ∧
    ((({ tableCounter with start_value := 5 }).apply_rule Rule.INC 0).start_value = 2 ∧
     (({ tableCounter with start_value := 2 }).apply_rule Rule.DEC 0).start_value = 5 ∧
     (tableCounter.apply_rule Rule.MAX 0).start_value = 5 ∧
     (tableCounter.apply_rule Rule.MIN 0).start_value = 2 ∧
     (({ tableCounter with start_value := 3 }).apply_rule Rule.POLE 0).start_value = 5 ∧
     (({ tableCounter with start_value := 4 }).apply_rule Rule.POLE 0).start_value = 2) := by
  refine ⟨?_, ?_, ?_, ?_, by decide⟩
  · intro c r h
    simp only [Counter.apply_rule]
    split_ifs <;> omega
  · intro c r h
    simp only [Counter.apply_rule]
    split_ifs <;> omega
  · intro c r
    simp [Counter.apply_rule]
  · intro c r h1 h2
    simp only [Counter.apply_rule]
    split_ifs with h <;> constructor <;> intro <;> omega

/-- Claim C6 witness: INC on start_value 5 with range 2..5 wraps to 2. -/
theorem C6_witness :
    (({ tableCounter with start_value := 5 }).apply_rule Rule.INC 0).start_value =
      if (5 : Int) = 5 then 2 else 5 + 1 :=
  C6_apply_rule_rules.1 { tableCounter with start_value := 5 } 0 (by decide)

/-- Claim C10: Counter.start with delayed = true performs the same
value = start_value assignment as an immediate start before entering
READY; the in-progress countdown value is not preserved, and the two
results differ only in the resulting state. -/
theorem C10_start_delayed_sets_value (c : Counter) (d : Bool) :
    (c.start d).value = c.start_value ∧
    (c.start true).value = (c.start false).value ∧
    (c.start true).state = State.READY ∧
    (c.start false).state = State.RUNNING ∧
    { c.start true with state := State.RUNNING } = c.start false := by
  simp [Counter.start]

/-- Claim C3 counterexample: the claim states reset_all leaves the value
field of a RUNNING counter unchanged; but on a RUNNING counter with
value 5 and range_min 2, reset_counters overwrites value with 2 (the
delayed start of the source assigns value = start_value immediately). -/
theorem C3_counterexample :
    scenarioC3.counters.map (fun c => (c.value, c.range_min, c.state)) =
      [(5, 2, State.RUNNING)] ∧
    scenarioC3.reset_counters.counters.map Counter.value = [2] ∧
    (2 : Int) ≠ 5 := by decide

/-- Claim C3 as amended: reset_counters sets every counter's start_value
to range_min; a counter that is RUNNING at the time of the call is
additionally given value = range_min immediately (not left unchanged)
and moved to READY, so it re-enters RUNNING at the next step boundary;
counters not RUNNING keep their value and state. -/
theorem C3_reset_counters (m : Meadowphysics) (i : Nat) (c : Counter)
    (hi : m.counters.get? i = some c) :
    m.reset_counters.counters.get? i = some (resetCounter c) ∧
    (resetCounter c).start_value = c.range_min ∧
    (c.state = State.RUNNING →
      (resetCounter c).value = c.range_min ∧
      (resetCounter c).state = State.READY) ∧
    (c.state ≠ State.RUNNING →
      (resetCounter c).value = c.value ∧
      (resetCounter c).state = c.state) := by
  refine ⟨?_, ?_, ?_, ?_⟩
  · simp only [Meadowphysics.reset_counters]
    rw [List.get?_eq_getElem?, List.getElem?_map]
    rw [List.get?_eq_getElem?] at hi
    rw [hi]
    rfl
  · simp only [resetCounter]
    split_ifs <;> simp [Counter.start]
  · intro h
    simp only [resetCounter, h]
    simp [Counter.start]
  · intro h
    simp only [resetCounter]
    split_ifs with hr
    · exact absurd hr h
    · simp

/-- Claim C3 witness: instantiation on the one-counter RUNNING scenario. -/
theorem C3_witness :
    scenarioC3.reset_counters.counters.get? 0 = some (resetCounter sc3c) ∧
    (resetCounter sc3c).start_value = sc3c.range_min ∧
    (resetCounter sc3c).value = sc3c.range_min ∧
    (resetCounter sc3c).state = State.READY := by
  have h := C3_reset_counters scenarioC3 0 sc3c rfl
  exact ⟨h.1, h.2.1, (h.2.2.1 rfl).1, (h.2.2.1 rfl).2⟩

/-- Claim C7: at the start of every step each TRIGGER output slot is
cleared to NONE while TOGGLE slots persist (the clearTriggers pass);
when a counter completes, events[j] = TRIGGER sets output[j] = TRIGGER
and events[j] = TOGGLE flips output[j] between TOGGLE and NONE; and in
the concrete scenario (counter 0 completes with events
[TRIGGER, TOGGLE, NONE] and output [NONE, TOGGLE, NONE] before the
step), the output after the step is [TRIGGER, NONE, NONE]. -/
theorem C7_trigger_clear_and_events :
    (∀ (out : List Event) (j : Nat) (e : Event), out.get? j = some e →
        (clearTriggers out).get? j =
          some (if e = Event.TRIGGER then Event.NONE else e)) ∧
    (∀ (c : Counter) (out : List Event) (j : Nat), j < out.length →
        (c.events.getD j Event.NONE = Event.TRIGGER →
          (outputEventAt c out j).get? j = some Event.TRIGGER) ∧
        (c.events.getD j Event.NONE = Event.TOGGLE →
          (outputEventAt c out j).get? j =
            some (if out.getD j Event.NONE = Event.TOGGLE then Event.NONE
                  else Event.TOGGLE))) ∧
    scenarioC7.output = [Event.NONE, Event.TOGGLE, Event.NONE] ∧
    (scenarioC7.step rnd0).output = [Event.TRIGGER, Event.NONE, Event.NONE] := by
  refine ⟨?_, ?_, by decide, by decide⟩
  · intro out j e h
    simp only [clearTriggers, List.get?_eq_getElem?] at h ⊢
    simp [List.getElem?_map, h]
  · intro c out j hj
    constructor
    · intro hev
      simp only [outputEventAt, hev]
      simp [List.get?_eq_getElem?, List.getElem?_set_self',
        List.getElem?_eq_getElem, hj]
    · intro hev
      simp only [outputEventAt, hev]
      have hD : out.getD j Event.NONE = out[j] :=
        List.getD_eq_getElem out Event.NONE hj
      rw [hD]
      rcases eq_or_ne out[j] Event.TOGGLE with h2 | h2 <;>
        simp [h2, List.get?_eq_getElem?, List.getElem?_set_self',
          List.getElem?_eq_getElem, hj]

/-- Claim C7 witness: clearing a single-slot output that holds TRIGGER
yields NONE. -/
theorem C7_witness :
    (clearTriggers [Event.TRIGGER]).get? 0 =
      some (if Event.TRIGGER = Event.TRIGGER then Event.NONE
            else Event.TRIGGER) :=
  C7_trigger_clear_and_events.1 [Event.TRIGGER] 0 Event.TRIGGER rfl

/-- Claim C1 counterexample: the claim states that after one step of the
N = 3 scenario counter 1 is READY; but the source starts synced counters
with start() (immediate), so after one step counter 1 is RUNNING. -/
theorem C1_counterexample :
    ((scenarioC1.step rnd0).counters.map Counter.state).get? 1 =
      some State.RUNNING ∧
    State.RUNNING ≠ State.READY := by decide

/-- Claim C1 as amended: when a RUNNING counter i completes, every
counter j with sync[j] true is started immediately (state RUNNING and
value = start_value at once), not delayed through READY; a synced
counter with index j > i is then decremented later within the same
step. In the N = 3 scenario, after one step counter 1 is RUNNING with
start_value = range_max = 5 and value = range_max - 1 = 4, and after the
following step its value is 3. -/
theorem C1_sync_start_immediate :
    (∀ (c : Counter) (cs : List Counter) (j : Nat) (cj : Counter),
        c.sync.getD j false = true → cs.get? j = some cj →
        (syncStartAt c cs j).get? j = some (cj.start false)) ∧
    ((scenarioC1.step rnd0).counters.map
        (fun c => (c.state, c.value, c.start_value))).get? 1 =
      some (State.RUNNING, 4, 5) ∧
    (((scenarioC1.step rnd0).step rnd0).counters.map Counter.value).get? 1 =
      some 3 := by
  refine ⟨?_, by decide, by decide⟩
  intro c cs j cj hs hj
  have hlen : j < cs.length := by
    rw [List.get?_eq_getElem?] at hj
    exact (List.getElem?_eq_some.mp hj).1
  simp only [syncStartAt, hs, if_true, hj]
  simp [List.get?_eq_getElem?, List.getElem?_set_self',
    List.getElem?_eq_getElem, hlen]

/-- Claim C1 witness: a completing counter whose sync vector names
counter 0 starts that counter immediately. -/
theorem C1_witness :
    (syncStartAt syncSrcW [sc3c] 0).get? 0 = some (sc3c.start false) :=
  C1_sync_start_immediate.1 syncSrcW [sc3c] 0 sc3c rfl rfl

/-- Claim C2 counterexample: the claim bounds value below by
range_min - 1; but a RUNNING counter with range 2..5 counting down from
value 2 reaches value 1 after one step and value 0 after two steps, and
0 is strictly below range_min - 1 = 1 (completion is detected at the
literal value -1, not at range_min - 1). -/
theorem C2_counterexample :
    scenarioC2.counters.map (fun c => (c.value, c.range_min, c.range_max)) =
      [((2 : Int), (2 : Int), (5 : Int))] ∧
    (scenarioC2.step rnd0).counters.map Counter.value = [1] ∧
    ((scenarioC2.step rnd0).step rnd0).counters.map Counter.value = [0] ∧
    ¬ ((2 : Int) - 1 ≤ 0) := by decide

/-- Claim C2 as amended: for every well-formed counter (non-negative
range containing start_value, value in [-1, range_max], RUNNING implies
value non-negative), each operation keeps value within [-1, range_max]:
this holds after start, stop, apply_rule, after decrement of a RUNNING
counter, and for every counter after a whole Meadowphysics.step. The
lower bound is the literal -1 completion sentinel, not range_min - 1. -/
theorem C2_value_bounds :
    (∀ (c : Counter) (d : Bool), c.WF →
        -1 ≤ (c.start d).value ∧ (c.start d).value ≤ (c.start d).range_max) ∧
    (∀ c : Counter, c.WF → -1 ≤ c.stop.value ∧ c.stop.value ≤ c.stop.range_max) ∧
    (∀ (c : Counter) (rule : Rule) (r : Int), c.WF →
        -1 ≤ (c.apply_rule rule r).value ∧
        (c.apply_rule rule r).value ≤ (c.apply_rule rule r).range_max) ∧
    (∀ c : Counter, c.WF → c.state = State.RUNNING →
        -1 ≤ c.decrement.value ∧ c.decrement.value ≤ c.decrement.range_max) ∧
    (∀ (m : Meadowphysics) (rnd : Nat → Int), allWF m.counters →
        ∀ c ∈ (m.step rnd).counters, -1 ≤ c.value ∧ c.value ≤ c.range_max) := by
  refine ⟨?_, ?_, ?_, ?_, ?_⟩
  · intro c d h
    have h2 := wf_start h d
    exact ⟨h2.2.2.2.1, h2.2.2.2.2.1⟩
  · intro c h
    have h2 := wf_stop h
    exact ⟨h2.2.2.2.1, h2.2.2.2.2.1⟩
  · intro c rule r h
    have h2 := wf_apply_rule h rule r
    exact ⟨h2.2.2.2.1, h2.2.2.2.2.1⟩
  · intro c h hst
    rcases h with ⟨h1, h2, h3, h4, h5, h6⟩
    have hv := h6 hst
    rcases decrement_fields c with ⟨f1, f2, f3, f4, f5⟩
    rcases f5 with f5 | f5 <;> rw [f5, f3] <;> omega
  · intro m rnd h c hc
    have h2 := allWF_step rnd h c hc
    exact ⟨h2.2.2.2.1, h2.2.2.2.2.1⟩

/-- Claim C2 witness: the step bound instantiated on the one-counter
scenario, whose counter after one step is the same record with value 1. -/
theorem C2_witness :
    -1 ≤ ({ sc2c with value := 1 } : Counter).value ∧
    ({ sc2c with value := 1 } : Counter).value ≤
      ({ sc2c with value := 1 } : Counter).range_max :=
  C2_value_bounds.2.2.2.2 scenarioC2 rnd0 (by decide)
    { sc2c with value := 1 } (by decide)
